import Mathlib

/-!
Shallow embedding of the uModbus function PDU codec and dispatch engine
(`modbus/functions.py`): request parsing, field validation, execution
against a routing capability, and response serialization for Modbus
function codes 1-6, together with theorems about its behaviour.

PDUs are modelled as lists of byte values (`List Nat`, each entry meant
to lie in `[0, 255]`).  Python exceptions are modelled by the `PyErr`
inductive and fallible operations return `Except PyErr _` or
`Option _`.  `struct.pack` raises `struct.error` when a field value
does not fit its format character, so the packing helpers return
`none` in exactly those situations.
-/

/-- Error kinds raised by the Python code: the two protocol faults from
`modbus.exceptions`, the `KeyError` escaping the function-code map
lookup in `function_factory`, and `struct.error` from `struct.unpack`
or `struct.pack`.  (`TypeError` from calling `None` is caught inside
`execute` and never escapes, so it needs no constructor.) -/
inductive PyErr where
  | illegalDataValueError
  | illegalDataAddressError
  | keyError
  | structError
deriving DecidableEq, Repr

/-- Pack one value with `struct` format character `B`: an unsigned byte.
`struct.pack` raises `struct.error` unless `0 <= v <= 255`. -/
def packB (v : Nat) : Option Nat :=
  if v ≤ 255 then some v else none

/-- Pack a list of values, each with format character `B`
(the `'B' * len(bytes_)` tail of the format string in
`SingleBitResponse.create_response_pdu`). -/
def packBList : List Nat → Option (List Nat)
  | [] => some []
  | v :: rest =>
    match packB v, packBList rest with
    | some b, some bs => some (b :: bs)
    | _, _ => none

/-- Pack one value with format character `H`: a big-endian unsigned
16-bit integer, two bytes, high byte first.  `struct.pack` raises
`struct.error` unless `0 <= v <= 65535`. -/
def packH (v : Nat) : Option (List Nat) :=
  if v ≤ 65535 then some [v / 256, v % 256] else none

/-- Pack one Python integer (possibly negative) with format character
`H`.  Used for the `value` field of write functions, which is stored as
an arbitrary integer. -/
def packHInt (v : Int) : Option (List Nat) :=
  if 0 ≤ v ∧ v ≤ 65535 then some [v.toNat / 256, v.toNat % 256] else none

/-- Pack a list of values, each with format character `H`
(the `'H' * len(data)` tail of the format string in
`MultiBitResponse.create_response_pdu`). -/
def packHList : List Nat → Option (List Nat)
  | [] => some []
  | v :: rest =>
    match packH v, packHList rest with
    | some bs, some rest2 => some (bs ++ rest2)
    | _, _ => none

/-- `struct.unpack('>BHH', pdu)`: requires exactly 5 bytes and yields
the function-code byte and two big-endian unsigned 16-bit fields.
Raises `struct.error` on any other length. -/
def unpackBHH (pdu : List Nat) : Except PyErr (Nat × Nat × Nat) :=
  match pdu with
  | [b0, b1, b2, b3, b4] => .ok (b0, 256 * b1 + b2, 256 * b3 + b4)
  | _ => .error .structError

/-- State of a Modbus read function instance (`ReadFunction` in the
source).  `function_code` and `max_quantity` are class attributes of
the concrete variant; `starting_address` and `quantity` are set by
`__init__`. -/
structure ReadFunction where
  function_code : Nat
  max_quantity : Nat
  starting_address : Nat
  quantity : Nat
deriving DecidableEq, Repr

/-- `ReadFunction.__init__`: raises `IllegalDataValueError` when
`quantity < 1 or quantity > self.max_quantity`, otherwise stores the
fields unchanged. -/
def ReadFunction.create (function_code max_quantity starting_address quantity : Nat) :
    Except PyErr ReadFunction :=
  if quantity < 1 ∨ quantity > max_quantity then
    .error .illegalDataValueError
  else
    .ok ⟨function_code, max_quantity, starting_address, quantity⟩

/-- `ReadCoils.__init__` via `ReadFunction.__init__` with the class
attributes `function_code = 1`, `max_quantity = 2000`. -/
def ReadCoils.create (starting_address quantity : Nat) : Except PyErr ReadFunction :=
  ReadFunction.create 1 2000 starting_address quantity

/-- `ReadDiscreteInputs.__init__`: `function_code = 2`, `max_quantity = 2000`. -/
def ReadDiscreteInputs.create (starting_address quantity : Nat) : Except PyErr ReadFunction :=
  ReadFunction.create 2 2000 starting_address quantity

/-- `ReadHoldingRegisters.__init__`: `function_code = 3`, `max_quantity = 125`. -/
def ReadHoldingRegisters.create (starting_address quantity : Nat) : Except PyErr ReadFunction :=
  ReadFunction.create 3 125 starting_address quantity

/-- `ReadInputRegisters.__init__`: `function_code = 4`, `max_quantity = 125`. -/
def ReadInputRegisters.create (starting_address quantity : Nat) : Except PyErr ReadFunction :=
  ReadFunction.create 4 125 starting_address quantity

/-- `ReadFunction.create_from_request_pdu`: unpack the 5-byte PDU with
`'>BHH'` and construct the variant with the decoded
`(starting_address, quantity)`; the function-code byte is ignored. -/
def ReadFunction.create_from_request_pdu (function_code max_quantity : Nat)
    (pdu : List Nat) : Except PyErr ReadFunction :=
  match unpackBHH pdu with
  | .error e => .error e
  | .ok (_, starting_address, quantity) =>
    ReadFunction.create function_code max_quantity starting_address quantity

/-- The list of addresses visited by `ReadFunction.execute`:
`range(self.starting_address, self.starting_address + self.quantity)`,
in ascending order, over unbounded Python integers (no 16-bit wrap). -/
def ReadFunction.addresses (f : ReadFunction) : List Nat :=
  (List.range f.quantity).map (fun i => f.starting_address + i)

/-- A read endpoint: a callable invoked as
`endpoint(slave_id=slave_id, address=address)` returning the value read. -/
abbrev ReadEndpoint := Nat → Nat → Nat

/-- The routing capability used by read functions:
`route_map.match(slave_id, function_code, address)` returns an endpoint
or `None`. -/
abbrev ReadRouteMap := Nat → Nat → Nat → Option ReadEndpoint

/-- The loop body of `ReadFunction.execute`: visit each address in
order, look up its endpoint and collect the endpoint's return value.
The first missing endpoint makes the whole computation `none`
(in the source, calling `None` raises `TypeError`, which discards the
partially built `values` list). -/
def lookupValues (slave_id function_code : Nat) (route_map : ReadRouteMap) :
    List Nat → Option (List Nat)
  | [] => some []
  | a :: rest =>
    match route_map slave_id function_code a with
    | none => none
    | some endpoint =>
      match lookupValues slave_id function_code route_map rest with
      | none => none
      | some vs => some (endpoint slave_id a :: vs)

/-- `ReadFunction.execute(slave_id, route_map)`: returns the collected
values, or raises `IllegalDataAddressError` when the `TypeError` from a
failed route lookup is caught. -/
def ReadFunction.execute (f : ReadFunction) (slave_id : Nat)
    (route_map : ReadRouteMap) : Except PyErr (List Nat) :=
  match lookupValues slave_id f.function_code route_map f.addresses with
  | some values => .ok values
  | none => .error .illegalDataAddressError

/-- The value contributed by one address when its route lookup
succeeds: the endpoint applied to `(slave_id, address)`.  The `0`
default is never used under an `isSome` hypothesis. -/
def matchValue (route_map : ReadRouteMap) (slave_id function_code address : Nat) : Nat :=
  (route_map slave_id function_code address).elim 0 (fun e => e slave_id address)

/-- State of a `WriteSingleCoil` instance: `address` from the PDU and
the validated `_value` (an arbitrary Python integer before
validation, hence `Int`). -/
structure WriteSingleCoil where
  address : Nat
  value : Int
deriving DecidableEq, Repr

/-- State of a `WriteSingleRegister` instance. -/
structure WriteSingleRegister where
  address : Nat
  value : Int
deriving DecidableEq, Repr

/-- The `WriteSingleCoil.value` property setter: accepts exactly `0`
and `0xFF00`, raising `IllegalDataValueError` otherwise, and stores the
value unchanged. -/
def WriteSingleCoil.setValue (f : WriteSingleCoil) (value : Int) :
    Except PyErr WriteSingleCoil :=
  if value = 0 ∨ value = 65280 then .ok ⟨f.address, value⟩
  else .error .illegalDataValueError

/-- `WriteSingleCoil.__init__`, which assigns `self.value = value`
through the validating property setter. -/
def WriteSingleCoil.create (address : Nat) (value : Int) :
    Except PyErr WriteSingleCoil :=
  if value = 0 ∨ value = 65280 then .ok ⟨address, value⟩
  else .error .illegalDataValueError

/-- The `WriteSingleRegister.value` property setter: accepts exactly
`0 <= value <= 0xFFFF`, raising `IllegalDataValueError` otherwise. -/
def WriteSingleRegister.setValue (f : WriteSingleRegister) (value : Int) :
    Except PyErr WriteSingleRegister :=
  if 0 ≤ value ∧ value ≤ 65535 then .ok ⟨f.address, value⟩
  else .error .illegalDataValueError

/-- `WriteSingleRegister.__init__`, which assigns `self.value = value`
through the validating property setter. -/
def WriteSingleRegister.create (address : Nat) (value : Int) :
    Except PyErr WriteSingleRegister :=
  if 0 ≤ value ∧ value ≤ 65535 then .ok ⟨address, value⟩
  else .error .illegalDataValueError

/-- `WriteSingleValueFunction.create_from_request_pdu` specialised to
`WriteSingleCoil`: unpack `'>BHH'` and construct with the decoded
`(address, value)`; the function-code byte is ignored. -/
def WriteSingleCoil.create_from_request_pdu (pdu : List Nat) :
    Except PyErr WriteSingleCoil :=
  match unpackBHH pdu with
  | .error e => .error e
  | .ok (_, address, value) => WriteSingleCoil.create address (Int.ofNat value)

/-- `WriteSingleValueFunction.create_from_request_pdu` specialised to
`WriteSingleRegister`. -/
def WriteSingleRegister.create_from_request_pdu (pdu : List Nat) :
    Except PyErr WriteSingleRegister :=
  match unpackBHH pdu with
  | .error e => .error e
  | .ok (_, address, value) => WriteSingleRegister.create address (Int.ofNat value)

/-- `WriteSingleValueFunction.create_response_pdu`:
`struct.pack('>BHH', self.function_code, self.address, self.value)`. -/
def WriteSingleValueFunction.create_response_pdu (function_code address : Nat)
    (value : Int) : Option (List Nat) :=
  match packB function_code, packH address, packHInt value with
  | some fcb, some ab, some vb => some (fcb :: ab ++ vb)
  | _, _, _ => none

/-- Response PDU of a `WriteSingleCoil` instance (class attribute
`function_code = 5`). -/
def WriteSingleCoil.create_response_pdu (f : WriteSingleCoil) : Option (List Nat) :=
  WriteSingleValueFunction.create_response_pdu 5 f.address f.value

/-- Response PDU of a `WriteSingleRegister` instance (class attribute
`function_code = 6`). -/
def WriteSingleRegister.create_response_pdu (f : WriteSingleRegister) : Option (List Nat) :=
  WriteSingleValueFunction.create_response_pdu 6 f.address f.value

/-- A write endpoint: invoked as
`endpoint(slave_id=slave_id, address=address, value=value)`; its return
value is discarded. -/
abbrev WriteEndpoint := Nat → Nat → Int → Unit

/-- The routing capability as used by write functions. -/
abbrev WriteRouteMap := Nat → Nat → Nat → Option WriteEndpoint

/-- `WriteSingleValueFunction.execute(slave_id, route_map)`: one route
lookup for the single address; a missing endpoint means calling `None`,
whose `TypeError` is turned into `IllegalDataAddressError`.  The
endpoint's return value is discarded and the method returns `None`. -/
def WriteSingleValueFunction.execute (function_code address : Nat) (value : Int)
    (slave_id : Nat) (route_map : WriteRouteMap) : Except PyErr Unit :=
  match route_map slave_id function_code address with
  | none => .error .illegalDataAddressError
  | some endpoint => .ok (endpoint slave_id address value)

/-- `execute` on a `WriteSingleCoil` instance. -/
def WriteSingleCoil.execute (f : WriteSingleCoil) (slave_id : Nat)
    (route_map : WriteRouteMap) : Except PyErr Unit :=
  WriteSingleValueFunction.execute 5 f.address f.value slave_id route_map

/-- `execute` on a `WriteSingleRegister` instance. -/
def WriteSingleRegister.execute (f : WriteSingleRegister) (slave_id : Nat)
    (route_map : WriteRouteMap) : Except PyErr Unit :=
  WriteSingleValueFunction.execute 6 f.address f.value slave_id route_map

/-- The chunking comprehension in `SingleBitResponse.create_response_pdu`:
`[data[i:i + 8] for i in range(0, len(data), 8)]`.  The iterator
`range(0, len(data), 8)` produces `ceil(len(data) / 8)` indices
`0, 8, 16, ...`, and `data[i:i + 8]` is `take 8` of `drop i`. -/
def chunk8 (data : List Nat) : List (List Nat) :=
  (List.range ((data.length + 7) / 8)).map (fun k => (data.drop (8 * k)).take 8)

/-- `reduce(lambda a, b: (a << 1) + b, bits)`: a left fold whose
initial accumulator is the first list element.  In the source it is
only ever applied to non-empty chunks (Python `reduce` raises on an
empty sequence, so the `[]` case is unreachable there). -/
def reduceShift : List Nat → Nat
  | [] => 0
  | h :: t => t.foldl (fun a b => a * 2 + b) h

/-- `SingleBitResponse.create_response_pdu(data)`: chunk `data` into
groups of 8, reduce each reversed chunk to one byte value, then
`struct.pack('>BB' + 'B' * len(bytes_), self.function_code,
len(bytes_), *bytes_)`. -/
def SingleBitResponse.create_response_pdu (function_code : Nat) (data : List Nat) :
    Option (List Nat) :=
  let bytes_ := (chunk8 data).map (fun byte => reduceShift byte.reverse)
  match packB function_code, packB bytes_.length, packBList bytes_ with
  | some fcb, some cnt, some packed => some (fcb :: cnt :: packed)
  | _, _, _ => none

/-- `MultiBitResponse.create_response_pdu(data)`:
`struct.pack('>BB' + 'H' * len(data), self.function_code,
len(data) * 2, *data)`. -/
def MultiBitResponse.create_response_pdu (function_code : Nat) (data : List Nat) :
    Option (List Nat) :=
  match packB function_code, packB (data.length * 2), packHList data with
  | some fcb, some cnt, some vals => some (fcb :: cnt :: vals)
  | _, _, _ => none

/-- A typed function instance as produced by `function_factory`: one
variant per entry of `function_code_to_function_map`. -/
inductive ModbusFunction where
  | readCoils (f : ReadFunction)
  | readDiscreteInputs (f : ReadFunction)
  | readHoldingRegisters (f : ReadFunction)
  | readInputRegisters (f : ReadFunction)
  | writeSingleCoil (f : WriteSingleCoil)
  | writeSingleRegister (f : WriteSingleRegister)
deriving DecidableEq, Repr

/-- `function_factory(pdu)`: read the first byte as the function code
(`struct.unpack('>B', pdu[:1])` raises `struct.error` on an empty
input), look it up in `function_code_to_function_map` (a lookup miss
raises `KeyError`), and delegate to the matching class's
`create_from_request_pdu`.  The source wraps this function in
`@memoize`, which caches results keyed on the raw bytes; caching a
deterministic function does not change its input-output behaviour, so
the cache layer is not modelled. -/
def function_factory (pdu : List Nat) : Except PyErr ModbusFunction :=
  match pdu with
  | [] => .error .structError
  | function_code :: _ =>
    if function_code = 1 then
      (ReadFunction.create_from_request_pdu 1 2000 pdu).map ModbusFunction.readCoils
    else if function_code = 2 then
      (ReadFunction.create_from_request_pdu 2 2000 pdu).map ModbusFunction.readDiscreteInputs
    else if function_code = 3 then
      (ReadFunction.create_from_request_pdu 3 125 pdu).map ModbusFunction.readHoldingRegisters
    else if function_code = 4 then
      (ReadFunction.create_from_request_pdu 4 125 pdu).map ModbusFunction.readInputRegisters
    else if function_code = 5 then
      (WriteSingleCoil.create_from_request_pdu pdu).map ModbusFunction.writeSingleCoil
    else if function_code = 6 then
      (WriteSingleRegister.create_from_request_pdu pdu).map ModbusFunction.writeSingleRegister
    else
      .error .keyError

/-! ### Helper lemmas about the packing primitives -/

theorem packB_of_le {v : Nat} (h : v ≤ 255) : packB v = some v := by
  simp [packB, h]

theorem packB_of_gt {v : Nat} (h : 255 < v) : packB v = none := by
  simp [packB]
  omega

theorem packBList_of_le {l : List Nat} (h : ∀ b ∈ l, b ≤ 255) :
    packBList l = some l := by
  induction l with
  | nil => rfl
  | cons v rest ih =>
    have hv : v ≤ 255 := h v (List.mem_cons_self v rest)
    have hrest : packBList rest = some rest := ih (fun b hb => h b (List.mem_cons_of_mem v hb))
    simp [packBList, packB_of_le hv, hrest]

theorem chunk8_length (data : List Nat) :
    (chunk8 data).length = (data.length + 7) / 8 := by
  simp [chunk8]

theorem reduceShift_eq_foldl (l : List Nat) :
    reduceShift l = l.foldl (fun a b => a * 2 + b) 0 := by
  cases l with
  | nil => rfl
  | cons h t => simp [reduceShift, List.foldl_cons]

theorem reduceShift_reverse_eq_foldr (l : List Nat) :
    reduceShift l.reverse = l.foldr (fun b acc => acc * 2 + b) 0 := by
  rw [reduceShift_eq_foldl, List.foldl_reverse]

theorem foldr_bits_eq_sum (l : List Nat) :
    l.foldr (fun b acc => acc * 2 + b) 0 =
      ∑ i ∈ Finset.range l.length, l.getD i 0 * 2 ^ i := by
  induction l with
  | nil => simp
  | cons b t ih =>
    rw [List.foldr_cons, ih, List.length_cons, Finset.sum_range_succ']
    simp only [List.getD_cons_succ, List.getD_cons_zero, pow_succ, pow_zero, mul_one,
      ← mul_assoc]
    rw [← Finset.sum_mul]

theorem sum_getD_extend (c : List Nat) (h : c.length ≤ 8) :
    ∑ i ∈ Finset.range c.length, c.getD i 0 * 2 ^ i =
      ∑ i ∈ Finset.range 8, c.getD i 0 * 2 ^ i := by
  refine Finset.sum_subset (Finset.range_subset.mpr h) (fun i _ hi => ?_)
  rw [List.getD_eq_default]
  · exact Nat.zero_mul _
  · simpa using Finset.mem_range.not.mp hi

theorem take_drop_getD (data : List Nat) (k i : Nat) (hi : i < 8) :
    ((data.drop (8 * k)).take 8).getD i 0 = data.getD (8 * k + i) 0 := by
  rw [List.getD_eq_getElem?_getD, List.getD_eq_getElem?_getD,
    List.getElem?_take, if_pos hi, List.getElem?_drop]

theorem singleBit_bytes_eq (data : List Nat) :
    (chunk8 data).map (fun byte => reduceShift byte.reverse) =
      (List.range ((data.length + 7) / 8)).map
        (fun k => ∑ i ∈ Finset.range 8, data.getD (8 * k + i) 0 * 2 ^ i) := by
  unfold chunk8
  rw [List.map_map]
  refine List.map_congr_left (fun k _ => ?_)
  have hlen : ((data.drop (8 * k)).take 8).length ≤ 8 := by
    rw [List.length_take]
    exact min_le_left _ _
  rw [Function.comp_apply, reduceShift_reverse_eq_foldr, foldr_bits_eq_sum,
    sum_getD_extend _ hlen]
  exact Finset.sum_congr rfl (fun i hi => by
    rw [take_drop_getD data k i (Finset.mem_range.mp hi)])

theorem getD_le_one {data : List Nat} (hbits : ∀ b ∈ data, b = 0 ∨ b = 1)
    (n : Nat) : data.getD n 0 ≤ 1 := by
  rcases Nat.lt_or_ge n data.length with hn | hn
  · rw [List.getD_eq_getElem data 0 hn]
    rcases hbits _ (List.getElem_mem hn) with h | h <;> omega
  · rw [List.getD_eq_default data 0 hn]
    exact Nat.zero_le 1

theorem packed_byte_le {data : List Nat} (hbits : ∀ b ∈ data, b = 0 ∨ b = 1)
    (k : Nat) : ∑ i ∈ Finset.range 8, data.getD (8 * k + i) 0 * 2 ^ i ≤ 255 := by
  calc ∑ i ∈ Finset.range 8, data.getD (8 * k + i) 0 * 2 ^ i
      ≤ ∑ i ∈ Finset.range 8, 1 * 2 ^ i :=
        Finset.sum_le_sum (fun i _ =>
          Nat.mul_le_mul_right _ (getD_le_one hbits (8 * k + i)))
    _ = 255 := by decide

/-- A single-bit response whose chunk count exceeds 255 cannot be
packed: the byte-count field of the `'>BB...'` format overflows an
unsigned byte and `struct.pack` raises `struct.error`. -/
theorem singleBit_overflow {function_code : Nat} {data : List Nat}
    (h : 255 < (chunk8 data).length) :
    SingleBitResponse.create_response_pdu function_code data = none := by
  unfold SingleBitResponse.create_response_pdu
  have hcnt : packB (chunk8 data).length = none := packB_of_gt h
  cases h1 : packB function_code <;>
    cases h2 : packBList ((chunk8 data).map (fun byte => reduceShift byte.reverse)) <;>
      simp [hcnt, h1, h2]

/-- A multi-bit response for more than 127 registers cannot be packed:
`len(data) * 2` overflows the unsigned-byte byte-count field and
`struct.pack` raises `struct.error`. -/
theorem multiBit_overflow {function_code : Nat} {data : List Nat}
    (h : 127 < data.length) :
    MultiBitResponse.create_response_pdu function_code data = none := by
  unfold MultiBitResponse.create_response_pdu
  have hcnt : packB (data.length * 2) = none := packB_of_gt (by omega)
  cases h1 : packB function_code <;> cases h2 : packHList data <;> simp [hcnt, h1, h2]

/-- C1 (counterexample): the claim quantifies over every non-empty
list of 0/1 values, but on 2041 values the byte count is
`ceil(2041 / 8) = 256`, which does not fit the one-byte byte-count
field: `struct.pack` fails and no byte sequence is returned at all. -/
theorem singleBit_response_layout_cex :
    SingleBitResponse.create_response_pdu 1 (List.replicate 2041 0) = none := by
  apply singleBit_overflow
  rw [chunk8_length, List.length_replicate]
  norm_num

/-- C1 (amended): for every list of 0/1 values of length at most 2040
and function code at most 255, the single-bit response encoder returns
exactly one function-code byte, one byte-count byte equal to
`ceil(len(data) / 8)`, and byte-count packed bytes whose k-th byte is
the sum over the k-th chunk of 8 values of `bit_i << i`, missing
elements of an incomplete final chunk contributing 0. -/
theorem singleBit_response_layout (function_code : Nat) (data : List Nat)
    (hfc : function_code ≤ 255) (hbits : ∀ b ∈ data, b = 0 ∨ b = 1)
    (hlen : data.length ≤ 2040) :
    SingleBitResponse.create_response_pdu function_code data =
      some (function_code :: ((data.length + 7) / 8) ::
        (List.range ((data.length + 7) / 8)).map
          (fun k => ∑ i ∈ Finset.range 8, data.getD (8 * k + i) 0 * 2 ^ i)) := by
  unfold SingleBitResponse.create_response_pdu
  rw [singleBit_bytes_eq]
  have hcnt : ((List.range ((data.length + 7) / 8)).map
      (fun k => ∑ i ∈ Finset.range 8, data.getD (8 * k + i) 0 * 2 ^ i)).length =
      (data.length + 7) / 8 := by
    rw [List.length_map, List.length_range]
  have hcnt255 : (data.length + 7) / 8 ≤ 255 := by omega
  have hall : ∀ b ∈ (List.range ((data.length + 7) / 8)).map
      (fun k => ∑ i ∈ Finset.range 8, data.getD (8 * k + i) 0 * 2 ^ i), b ≤ 255 := by
    intro b hb
    rcases List.mem_map.mp hb with ⟨k, _, hk⟩
    exact hk ▸ packed_byte_le hbits k
  simp only [hcnt, packB_of_le hfc, packB_of_le hcnt255, packBList_of_le hall]

/-- C1 (witness): the amended layout theorem evaluated at the two
vectors from the specification and the test suite. -/
theorem singleBit_response_layout_witness :
    SingleBitResponse.create_response_pdu 1 [1, 1, 0] = some [1, 1, 3] ∧
    SingleBitResponse.create_response_pdu 1 [0, 1, 0, 0, 0, 0, 0, 0, 1] =
      some [1, 2, 2, 1] := by
  constructor
  · exact (singleBit_response_layout 1 [1, 1, 0] (by decide) (by decide)
      (by decide)).trans (by decide)
  · exact (singleBit_response_layout 1 [0, 1, 0, 0, 0, 0, 0, 0, 1] (by decide)
      (by decide) (by decide)).trans (by decide)

theorem packHList_of_le {data : List Nat} (h : ∀ v ∈ data, v ≤ 65535) :
    packHList data = some ((data.map (fun v => [v / 256, v % 256])).flatten) := by
  induction data with
  | nil => rfl
  | cons v rest ih =>
    have hv : packH v = some [v / 256, v % 256] := by
      simp [packH, h v (List.mem_cons_self v rest)]
    have hrest := ih (fun w hw => h w (List.mem_cons_of_mem v hw))
    simp [packHList, hv, hrest]

/-- C4 (counterexample): the claim quantifies over every list of
16-bit values, but on 128 values the byte count `2 * 128 = 256` does
not fit the one-byte byte-count field: `struct.pack` fails and no byte
sequence is returned at all. -/
theorem multiBit_response_layout_cex :
    MultiBitResponse.create_response_pdu 3 (List.replicate 128 0) = none := by
  apply multiBit_overflow
  rw [List.length_replicate]
  norm_num

/-- C4 (amended): for every list of at most 127 values, each at most
0xFFFF, and function code at most 255, the register-style response
encoder returns exactly one function-code byte, one byte-count byte
equal to `2 * len(data)`, then each value as a big-endian 16-bit pair
in list order. -/
theorem multiBit_response_layout (function_code : Nat) (data : List Nat)
    (hfc : function_code ≤ 255) (hlen : data.length ≤ 127)
    (hv : ∀ v ∈ data, v ≤ 65535) :
    MultiBitResponse.create_response_pdu function_code data =
      some (function_code :: data.length * 2 ::
        (data.map (fun v => [v / 256, v % 256])).flatten) := by
  unfold MultiBitResponse.create_response_pdu
  have hcnt : data.length * 2 ≤ 255 := by omega
  rw [packB_of_le hfc, packB_of_le hcnt, packHList_of_le hv]

/-- C4 (witness): the amended layout theorem evaluated at the vector
from the specification and the test suite: `[0, 1337]` with function
code 3 yields `03 04 00 00 05 39`. -/
theorem multiBit_response_layout_witness :
    MultiBitResponse.create_response_pdu 3 [0, 1337] = some [3, 4, 0, 0, 5, 57] := by
  exact (multiBit_response_layout 3 [0, 1337] (by decide) (by decide)
    (by decide)).trans (by decide)

/-! ### Helper lemmas about the read-execute loop -/

theorem lookupValues_eq_none_iff (slave_id function_code : Nat)
    (route_map : ReadRouteMap) (l : List Nat) :
    lookupValues slave_id function_code route_map l = none ↔
      ∃ a ∈ l, route_map slave_id function_code a = none := by
  induction l with
  | nil => simp [lookupValues]
  | cons a rest ih =>
    cases h : route_map slave_id function_code a with
    | none =>
      simp only [lookupValues, h]
      exact iff_of_true trivial ⟨a, List.mem_cons_self a rest, h⟩
    | some endpoint =>
      constructor
      · intro hnone
        rcases h2 : lookupValues slave_id function_code route_map rest with _ | vs
        · rcases ih.mp h2 with ⟨b, hb, hrb⟩
          exact ⟨b, List.mem_cons_of_mem a hb, hrb⟩
        · simp [lookupValues, h, h2] at hnone
      · rintro ⟨b, hb, hrb⟩
        rcases List.mem_cons.mp hb with rfl | hb2
        · exact absurd h (by simp [hrb])
        · have h2 : lookupValues slave_id function_code route_map rest = none :=
            ih.mpr ⟨b, hb2, hrb⟩
          simp [lookupValues, h, h2]

theorem lookupValues_of_forall_isSome {slave_id function_code : Nat}
    {route_map : ReadRouteMap} {l : List Nat}
    (h : ∀ a ∈ l, (route_map slave_id function_code a).isSome) :
    lookupValues slave_id function_code route_map l =
      some (l.map (fun a => matchValue route_map slave_id function_code a)) := by
  induction l with
  | nil => rfl
  | cons a rest ih =>
    rcases Option.isSome_iff_exists.mp (h a (List.mem_cons_self a rest)) with ⟨e, he⟩
    have hrest := ih (fun b hb => h b (List.mem_cons_of_mem a hb))
    simp [lookupValues, he, hrest, matchValue]

/-- C2: for every read function and every write-single function,
`execute` raises `IllegalDataAddressError` exactly when the routing
capability yields no endpoint for at least one address of the
requested range (the single address for writes), and in the read case
a missing endpoint means no value list is ever returned — no partial
result reaches the caller. -/
theorem execute_illegal_data_address_iff (f : ReadFunction) (slave_id : Nat)
    (route_map : ReadRouteMap) (wc : WriteSingleCoil) (wr : WriteSingleRegister)
    (write_route_map : WriteRouteMap) :
    (f.execute slave_id route_map = .error .illegalDataAddressError ↔
      ∃ a ∈ f.addresses, route_map slave_id f.function_code a = none) ∧
    ((∃ a ∈ f.addresses, route_map slave_id f.function_code a = none) →
      ∀ vs, f.execute slave_id route_map ≠ .ok vs) ∧
    (wc.execute slave_id write_route_map = .error .illegalDataAddressError ↔
      write_route_map slave_id 5 wc.address = none) ∧
    (wr.execute slave_id write_route_map = .error .illegalDataAddressError ↔
      write_route_map slave_id 6 wr.address = none) := by
  have key : f.execute slave_id route_map = .error .illegalDataAddressError ↔
      lookupValues slave_id f.function_code route_map f.addresses = none := by
    unfold ReadFunction.execute
    cases h : lookupValues slave_id f.function_code route_map f.addresses <;> simp [h]
  refine ⟨key.trans (lookupValues_eq_none_iff _ _ _ _), ?_, ?_, ?_⟩
  · intro hmiss vs
    have herr := key.mpr ((lookupValues_eq_none_iff _ _ _ _).mpr hmiss)
    rw [herr]
    exact fun hcontra => Except.noConfusion hcontra
  · unfold WriteSingleCoil.execute WriteSingleValueFunction.execute
    cases h : write_route_map slave_id 5 wc.address <;> simp [h]
  · unfold WriteSingleRegister.execute WriteSingleValueFunction.execute
    cases h : write_route_map slave_id 6 wr.address <;> simp [h]

/-- C2 (witness): with an empty routing capability, a 3-coil read at
address 100 and a single-coil write at address 100 both fail with
`IllegalDataAddressError`. -/
theorem execute_illegal_data_address_iff_witness :
    (ReadFunction.mk 1 2000 100 3).execute 1 (fun _ _ _ => none) =
      .error .illegalDataAddressError ∧
    (WriteSingleCoil.mk 100 0).execute 1 (fun _ _ _ => none) =
      .error .illegalDataAddressError := by
  have h := execute_illegal_data_address_iff (ReadFunction.mk 1 2000 100 3) 1
    (fun _ _ _ => none) (WriteSingleCoil.mk 100 0) (WriteSingleRegister.mk 100 0)
    (fun _ _ _ => none)
  exact ⟨h.1.mpr ⟨100, by decide, rfl⟩, h.2.2.1.mpr rfl⟩

/-- C3: when the routing capability yields an endpoint for every
address in the requested range, `execute` returns the list of the
endpoints' return values, one per address, of length `quantity`,
ordered by ascending address (the address list is
`starting_address, starting_address + 1, ...`). -/
theorem execute_returns_ordered_values (f : ReadFunction) (slave_id : Nat)
    (route_map : ReadRouteMap)
    (h : ∀ a ∈ f.addresses, (route_map slave_id f.function_code a).isSome) :
    f.execute slave_id route_map =
      .ok (f.addresses.map (fun a => matchValue route_map slave_id f.function_code a)) ∧
    (f.addresses.map (fun a => matchValue route_map slave_id f.function_code a)).length =
      f.quantity ∧
    f.addresses = (List.range f.quantity).map (fun i => f.starting_address + i) := by
  refine ⟨?_, ?_, rfl⟩
  · unfold ReadFunction.execute
    rw [lookupValues_of_forall_isSome h]
  · rw [List.length_map, ReadFunction.addresses, List.length_map, List.length_range]

/-- C3 (witness): reading 3 coils starting at address 100 against an
endpoint returning `address % 2` yields `[0, 1, 0]`. -/
theorem execute_returns_ordered_values_witness :
    (ReadFunction.mk 1 2000 100 3).execute 1
      (fun _ _ _ => some (fun _ address => address % 2)) = .ok [0, 1, 0] := by
  have h := execute_returns_ordered_values (ReadFunction.mk 1 2000 100 3) 1
    (fun _ _ _ => some (fun _ address => address % 2)) (fun a _ => rfl)
  exact h.1.trans (by rfl)

/-- Inversion for `ReadFunction.__init__`: a successful construction
yields exactly the stored fields, with the quantity inside
`[1, max_quantity]`. -/
theorem ReadFunction.create_ok_inv {fc maxQ s q : Nat} {f : ReadFunction}
    (h : ReadFunction.create fc maxQ s q = .ok f) :
    f = ReadFunction.mk fc maxQ s q ∧ 1 ≤ q ∧ q ≤ maxQ := by
  unfold ReadFunction.create at h
  split at h
  · exact absurd h (by simp)
  · next hcond =>
    push_neg at hcond
    exact ⟨(Except.ok.inj h).symm, hcond.1, hcond.2⟩

/-- Validation outcome of `ReadFunction.__init__` for any variant
parameters: the error cases and the success case. -/
theorem ReadFunction.create_spec (fc maxQ s q : Nat) :
    (ReadFunction.create fc maxQ s q = .error .illegalDataValueError ↔
      (q < 1 ∨ q > maxQ)) ∧
    (¬(q < 1 ∨ q > maxQ) →
      ReadFunction.create fc maxQ s q = .ok (ReadFunction.mk fc maxQ s q)) := by
  unfold ReadFunction.create
  split
  · next h => exact ⟨iff_of_true rfl h, fun hn => absurd h hn⟩
  · next h => exact ⟨iff_of_false (by simp) h, fun _ => rfl⟩

/-- C5: each read-function variant raises `IllegalDataValueError` at
construction exactly when the decoded quantity lies outside
`[1, max_quantity]` (2000 for `ReadCoils` and `ReadDiscreteInputs`,
125 for `ReadHoldingRegisters` and `ReadInputRegisters`), and
otherwise succeeds with the fields stored unchanged. -/
theorem read_create_quantity_validation (starting_address quantity : Nat) :
    (ReadCoils.create starting_address quantity = .error .illegalDataValueError ↔
      (quantity < 1 ∨ quantity > 2000)) ∧
    (ReadDiscreteInputs.create starting_address quantity = .error .illegalDataValueError ↔
      (quantity < 1 ∨ quantity > 2000)) ∧
    (ReadHoldingRegisters.create starting_address quantity = .error .illegalDataValueError ↔
      (quantity < 1 ∨ quantity > 125)) ∧
    (ReadInputRegisters.create starting_address quantity = .error .illegalDataValueError ↔
      (quantity < 1 ∨ quantity > 125)) ∧
    (¬(quantity < 1 ∨ quantity > 2000) →
      ReadCoils.create starting_address quantity =
        .ok (ReadFunction.mk 1 2000 starting_address quantity) ∧
      ReadDiscreteInputs.create starting_address quantity =
        .ok (ReadFunction.mk 2 2000 starting_address quantity)) ∧
    (¬(quantity < 1 ∨ quantity > 125) →
      ReadHoldingRegisters.create starting_address quantity =
        .ok (ReadFunction.mk 3 125 starting_address quantity) ∧
      ReadInputRegisters.create starting_address quantity =
        .ok (ReadFunction.mk 4 125 starting_address quantity)) := by
  obtain ⟨h1, h1ok⟩ := ReadFunction.create_spec 1 2000 starting_address quantity
  obtain ⟨h2, h2ok⟩ := ReadFunction.create_spec 2 2000 starting_address quantity
  obtain ⟨h3, h3ok⟩ := ReadFunction.create_spec 3 125 starting_address quantity
  obtain ⟨h4, h4ok⟩ := ReadFunction.create_spec 4 125 starting_address quantity
  exact ⟨h1, h2, h3, h4, fun hn => ⟨h1ok hn, h2ok hn⟩, fun hn => ⟨h3ok hn, h4ok hn⟩⟩

/-- C5 (witness): boundary instances — quantities 1 and
`max_quantity` succeed, `max_quantity + 1` and 0 fail. -/
theorem read_create_quantity_validation_witness :
    ReadCoils.create 100 1 = .ok (ReadFunction.mk 1 2000 100 1) ∧
    ReadCoils.create 100 2000 = .ok (ReadFunction.mk 1 2000 100 2000) ∧
    ReadCoils.create 100 2001 = .error .illegalDataValueError ∧
    ReadCoils.create 100 0 = .error .illegalDataValueError ∧
    ReadHoldingRegisters.create 100 125 = .ok (ReadFunction.mk 3 125 100 125) ∧
    ReadHoldingRegisters.create 100 126 = .error .illegalDataValueError := by
  refine ⟨((read_create_quantity_validation 100 1).2.2.2.2.1 (by omega)).1,
    ((read_create_quantity_validation 100 2000).2.2.2.2.1 (by omega)).1,
    (read_create_quantity_validation 100 2001).1.mpr (by omega),
    (read_create_quantity_validation 100 0).1.mpr (by omega),
    ((read_create_quantity_validation 100 125).2.2.2.2.2 (by omega)).1,
    (read_create_quantity_validation 100 126).2.2.1.mpr (by omega)⟩

/-- C6: `WriteSingleCoil` accepts a value exactly when it is 0x0000 or
0xFF00 and `WriteSingleRegister` exactly when `0 <= value <= 0xFFFF`;
any other value raises `IllegalDataValueError`, both at construction
and on every later assignment through the value setter, and an
accepted value is stored unchanged. -/
theorem write_value_validation :
    (∀ (address : Nat) (value : Int),
      (WriteSingleCoil.create address value = .error .illegalDataValueError ↔
        ¬(value = 0 ∨ value = 65280)) ∧
      ((value = 0 ∨ value = 65280) →
        WriteSingleCoil.create address value = .ok (WriteSingleCoil.mk address value))) ∧
    (∀ (f : WriteSingleCoil) (value : Int),
      (f.setValue value = .error .illegalDataValueError ↔
        ¬(value = 0 ∨ value = 65280)) ∧
      ((value = 0 ∨ value = 65280) →
        f.setValue value = .ok (WriteSingleCoil.mk f.address value))) ∧
    (∀ (address : Nat) (value : Int),
      (WriteSingleRegister.create address value = .error .illegalDataValueError ↔
        ¬(0 ≤ value ∧ value ≤ 65535)) ∧
      ((0 ≤ value ∧ value ≤ 65535) →
        WriteSingleRegister.create address value =
          .ok (WriteSingleRegister.mk address value))) ∧
    (∀ (f : WriteSingleRegister) (value : Int),
      (f.setValue value = .error .illegalDataValueError ↔
        ¬(0 ≤ value ∧ value ≤ 65535)) ∧
      ((0 ≤ value ∧ value ≤ 65535) →
        f.setValue value = .ok (WriteSingleRegister.mk f.address value))) := by
  refine ⟨fun address value => ?_, fun f value => ?_,
    fun address value => ?_, fun f value => ?_⟩
  · unfold WriteSingleCoil.create
    split
    · next h => exact ⟨iff_of_false (by simp) (not_not_intro h), fun _ => rfl⟩
    · next h => exact ⟨iff_of_true rfl h, fun hv => absurd hv h⟩
  · unfold WriteSingleCoil.setValue
    split
    · next h => exact ⟨iff_of_false (by simp) (not_not_intro h), fun _ => rfl⟩
    · next h => exact ⟨iff_of_true rfl h, fun hv => absurd hv h⟩
  · unfold WriteSingleRegister.create
    split
    · next h => exact ⟨iff_of_false (by simp) (not_not_intro h), fun _ => rfl⟩
    · next h => exact ⟨iff_of_true rfl h, fun hv => absurd hv h⟩
  · unfold WriteSingleRegister.setValue
    split
    · next h => exact ⟨iff_of_false (by simp) (not_not_intro h), fun _ => rfl⟩
    · next h => exact ⟨iff_of_true rfl h, fun hv => absurd hv h⟩

/-- C6 (witness): concrete accepted and rejected values for both write
variants, at construction and at value reassignment. -/
theorem write_value_validation_witness :
    WriteSingleCoil.create 100 5 = .error .illegalDataValueError ∧
    WriteSingleCoil.create 100 65280 = .ok (WriteSingleCoil.mk 100 65280) ∧
    (WriteSingleCoil.mk 100 0).setValue 5 = .error .illegalDataValueError ∧
    WriteSingleRegister.create 100 (-1) = .error .illegalDataValueError ∧
    WriteSingleRegister.create 100 65536 = .error .illegalDataValueError ∧
    WriteSingleRegister.create 100 32000 = .ok (WriteSingleRegister.mk 100 32000) ∧
    (WriteSingleRegister.mk 100 0).setValue 65536 = .error .illegalDataValueError := by
  refine ⟨(write_value_validation.1 100 5).1.mpr (by decide),
    (write_value_validation.1 100 65280).2 (by decide),
    (write_value_validation.2.1 (WriteSingleCoil.mk 100 0) 5).1.mpr (by decide),
    (write_value_validation.2.2.1 100 (-1)).1.mpr (by decide),
    (write_value_validation.2.2.1 100 65536).1.mpr (by decide),
    (write_value_validation.2.2.1 100 32000).2 (by decide),
    (write_value_validation.2.2.2 (WriteSingleRegister.mk 100 0) 65536).1.mpr (by decide)⟩

/-- Packing a 16-bit field recovered from two bytes reproduces those
two bytes. -/
theorem packH_two_bytes {b1 b2 : Nat} (h1 : b1 ≤ 255) (h2 : b2 ≤ 255) :
    packH (256 * b1 + b2) = some [b1, b2] := by
  unfold packH
  rw [if_pos (by omega)]
  have hd : (256 * b1 + b2) / 256 = b1 := by omega
  have hm : (256 * b1 + b2) % 256 = b2 := by omega
  rw [hd, hm]

/-- Packing a non-negative 16-bit value stored as a Python integer
recovers the two original bytes. -/
theorem packHInt_two_bytes {b3 b4 : Nat} (h3 : b3 ≤ 255) (h4 : b4 ≤ 255) :
    packHInt (Int.ofNat (256 * b3 + b4)) = some [b3, b4] := by
  unfold packHInt
  have hcond : 0 ≤ Int.ofNat (256 * b3 + b4) ∧ Int.ofNat (256 * b3 + b4) ≤ 65535 := by
    refine ⟨Int.ofNat_nonneg _, ?_⟩
    show ((256 * b3 + b4 : Nat) : Int) ≤ 65535
    omega
  rw [if_pos hcond]
  have ht : (Int.ofNat (256 * b3 + b4)).toNat = 256 * b3 + b4 := rfl
  have hd : (256 * b3 + b4) / 256 = b3 := by omega
  have hm : (256 * b3 + b4) % 256 = b4 := by omega
  rw [ht, hd, hm]

/-- A valid coil value makes `WriteSingleCoil.__init__` succeed with
the fields stored unchanged. -/
theorem coil_create_of_valid {address : Nat} {value : Int}
    (h : value = 0 ∨ value = 65280) :
    WriteSingleCoil.create address value = .ok (WriteSingleCoil.mk address value) := by
  unfold WriteSingleCoil.create
  rw [if_pos h]

/-- A valid register value makes `WriteSingleRegister.__init__`
succeed with the fields stored unchanged. -/
theorem register_create_of_valid {address : Nat} {value : Int}
    (h : 0 ≤ value ∧ value ≤ 65535) :
    WriteSingleRegister.create address value =
      .ok (WriteSingleRegister.mk address value) := by
  unfold WriteSingleRegister.create
  rw [if_pos h]

/-- C7: for every valid 5-byte write-single request PDU (function code
5 with value 0x0000 or 0xFF00, or function code 6 with any 16-bit
value), constructing the function from the request PDU and then
calling `create_response_pdu` reproduces the request bytes verbatim. -/
theorem write_round_trip (b1 b2 b3 b4 : Nat)
    (h1 : b1 ≤ 255) (h2 : b2 ≤ 255) (h3 : b3 ≤ 255) (h4 : b4 ≤ 255) :
    ((256 * b3 + b4 = 0 ∨ 256 * b3 + b4 = 65280) →
      ∃ f, WriteSingleCoil.create_from_request_pdu [5, b1, b2, b3, b4] = .ok f ∧
        f.create_response_pdu = some [5, b1, b2, b3, b4]) ∧
    (∃ g, WriteSingleRegister.create_from_request_pdu [6, b1, b2, b3, b4] = .ok g ∧
      g.create_response_pdu = some [6, b1, b2, b3, b4]) := by
  constructor
  · intro hv
    have hvi : Int.ofNat (256 * b3 + b4) = 0 ∨ Int.ofNat (256 * b3 + b4) = 65280 := by
      rcases hv with hv | hv <;> rw [hv] <;> simp
    refine ⟨WriteSingleCoil.mk (256 * b1 + b2) (Int.ofNat (256 * b3 + b4)), ?_, ?_⟩
    · show WriteSingleCoil.create (256 * b1 + b2) (Int.ofNat (256 * b3 + b4)) =
        .ok (WriteSingleCoil.mk (256 * b1 + b2) (Int.ofNat (256 * b3 + b4)))
      exact coil_create_of_valid hvi
    · unfold WriteSingleCoil.create_response_pdu
        WriteSingleValueFunction.create_response_pdu
      rw [packB_of_le (by norm_num), packH_two_bytes h1 h2, packHInt_two_bytes h3 h4]
      rfl
  · refine ⟨WriteSingleRegister.mk (256 * b1 + b2) (Int.ofNat (256 * b3 + b4)), ?_, ?_⟩
    · show WriteSingleRegister.create (256 * b1 + b2) (Int.ofNat (256 * b3 + b4)) =
        .ok (WriteSingleRegister.mk (256 * b1 + b2) (Int.ofNat (256 * b3 + b4)))
      refine register_create_of_valid ⟨Int.ofNat_nonneg _, ?_⟩
      show ((256 * b3 + b4 : Nat) : Int) ≤ 65535
      omega
    · unfold WriteSingleRegister.create_response_pdu
        WriteSingleValueFunction.create_response_pdu
      rw [packB_of_le (by norm_num), packH_two_bytes h1 h2, packHInt_two_bytes h3 h4]
      rfl

/-- C7 (witness): the request bytes `05 00 64 00 00` round-trip to the
identical response bytes. -/
theorem write_round_trip_witness :
    ∃ f, WriteSingleCoil.create_from_request_pdu [5, 0, 100, 0, 0] = .ok f ∧
      f.create_response_pdu = some [5, 0, 100, 0, 0] := by
  exact (write_round_trip 0 100 0 0 (by norm_num) (by norm_num) (by norm_num)
    (by norm_num)).1 (by norm_num)

/-- C8: a PDU whose first byte is a function code outside
`{1, 2, 3, 4, 5, 6}` makes `function_factory` surface the lookup miss
of `function_code_to_function_map` (`KeyError`), an error distinct
from both `IllegalDataValueError` and `IllegalDataAddressError`. -/
theorem function_factory_unknown_code (b0 : Nat) (rest : List Nat)
    (h : ¬(b0 = 1 ∨ b0 = 2 ∨ b0 = 3 ∨ b0 = 4 ∨ b0 = 5 ∨ b0 = 6)) :
    function_factory (b0 :: rest) = .error .keyError ∧
    PyErr.keyError ≠ PyErr.illegalDataValueError ∧
    PyErr.keyError ≠ PyErr.illegalDataAddressError := by
  push_neg at h
  obtain ⟨n1, n2, n3, n4, n5, n6⟩ := h
  refine ⟨?_, by decide, by decide⟩
  show (if b0 = 1 then
      (ReadFunction.create_from_request_pdu 1 2000 (b0 :: rest)).map ModbusFunction.readCoils
    else if b0 = 2 then
      (ReadFunction.create_from_request_pdu 2 2000 (b0 :: rest)).map
        ModbusFunction.readDiscreteInputs
    else if b0 = 3 then
      (ReadFunction.create_from_request_pdu 3 125 (b0 :: rest)).map
        ModbusFunction.readHoldingRegisters
    else if b0 = 4 then
      (ReadFunction.create_from_request_pdu 4 125 (b0 :: rest)).map
        ModbusFunction.readInputRegisters
    else if b0 = 5 then
      (WriteSingleCoil.create_from_request_pdu (b0 :: rest)).map
        ModbusFunction.writeSingleCoil
    else if b0 = 6 then
      (WriteSingleRegister.create_from_request_pdu (b0 :: rest)).map
        ModbusFunction.writeSingleRegister
    else .error .keyError) = .error .keyError
  rw [if_neg n1, if_neg n2, if_neg n3, if_neg n4, if_neg n5, if_neg n6]

/-- C8 (witness): function code 7 yields the unsupported-function
error. -/
theorem function_factory_unknown_code_witness :
    function_factory [7, 0, 100, 0, 3] = .error .keyError := by
  exact (function_factory_unknown_code 7 [0, 100, 0, 3] (by omega)).1

/-- C9: under the constructor's quantity invariant, the byte-count
value computed by either response encoder is at most 250, so packing
it into the single unsigned-byte byte-count field never fails: for
bit-style variants the count is the number of 8-bit chunks
(at most `ceil(2000 / 8) = 250`), for register-style variants it is
`2 * len(data)` (at most `2 * 125 = 250`). -/
theorem byte_count_fits_one_byte (starting_address quantity : Nat)
    (f : ReadFunction) (data : List Nat) :
    ((ReadCoils.create starting_address quantity = .ok f ∨
      ReadDiscreteInputs.create starting_address quantity = .ok f) →
      data.length = f.quantity →
      (chunk8 data).length ≤ 250 ∧
        packB (chunk8 data).length = some (chunk8 data).length) ∧
    ((ReadHoldingRegisters.create starting_address quantity = .ok f ∨
      ReadInputRegisters.create starting_address quantity = .ok f) →
      data.length = f.quantity →
      data.length * 2 ≤ 250 ∧ packB (data.length * 2) = some (data.length * 2)) := by
  constructor
  · intro hcreate hdata
    have hq : f.quantity = quantity ∧ quantity ≤ 2000 := by
      rcases hcreate with h | h <;>
        rcases ReadFunction.create_ok_inv h with ⟨rfl, _, hle⟩ <;> exact ⟨rfl, hle⟩
    have hcnt : (chunk8 data).length ≤ 250 := by
      rw [chunk8_length, hdata, hq.1]
      omega
    exact ⟨hcnt, packB_of_le (by omega)⟩
  · intro hcreate hdata
    have hq : f.quantity = quantity ∧ quantity ≤ 125 := by
      rcases hcreate with h | h <;>
        rcases ReadFunction.create_ok_inv h with ⟨rfl, _, hle⟩ <;> exact ⟨rfl, hle⟩
    have hcnt : data.length * 2 ≤ 250 := by
      rw [hdata, hq.1]
      omega
    exact ⟨hcnt, packB_of_le (by omega)⟩

/-- C9 (witness): at the maximal quantities — 2000 coil values and 125
register values — the byte counts are exactly 250 and both pack
successfully. -/
theorem byte_count_fits_one_byte_witness :
    ((chunk8 (List.replicate 2000 0)).length ≤ 250 ∧
      packB (chunk8 (List.replicate 2000 0)).length =
        some (chunk8 (List.replicate 2000 0)).length) ∧
    ((List.replicate 125 0 : List Nat).length * 2 ≤ 250 ∧
      packB ((List.replicate 125 0 : List Nat).length * 2) =
        some ((List.replicate 125 0 : List Nat).length * 2)) := by
  constructor
  · exact (byte_count_fits_one_byte 0 2000 (ReadFunction.mk 1 2000 0 2000)
      (List.replicate 2000 0)).1 (Or.inl rfl) (List.length_replicate 2000 0)
  · exact (byte_count_fits_one_byte 0 125 (ReadFunction.mk 3 125 0 125)
      (List.replicate 125 0)).2 (Or.inl rfl) (List.length_replicate 125 0)

/-- C10: read-function construction never checks the end of the
address range — any starting address and any quantity within
`[1, max_quantity]` construct successfully, even when
`starting_address + quantity - 1` exceeds 65535 — and `execute` then
consults the routing capability at plain unbounded addresses past
65535 with no wrap-around modulo 2^16: reading 2 coils at 65535
queries addresses 65535 and 65536. -/
theorem read_construction_ignores_range_end :
    (∀ (function_code max_quantity starting_address quantity : Nat),
      starting_address ≤ 65535 → 1 ≤ quantity → quantity ≤ max_quantity →
      ReadFunction.create function_code max_quantity starting_address quantity =
        .ok (ReadFunction.mk function_code max_quantity starting_address quantity)) ∧
    (∀ f, ReadCoils.create 65535 2 = .ok f →
      f.execute 1 (fun _ _ _ => some (fun _ address => address)) =
        .ok [65535, 65536]) := by
  constructor
  · intro fc maxQ s q hs h1 h2
    unfold ReadFunction.create
    rw [if_neg (by omega)]
  · intro f hf
    have hf2 : ReadFunction.mk 1 2000 65535 2 = f := Except.ok.inj hf
    rw [← hf2]
    rfl

/-- C10 (witness): the constructor accepts starting address 65535 with
quantity 2000 (an address range ending at 67534, far past 65535), and
executing the 2-coil read at 65535 against an identity endpoint
returns the values for addresses 65535 and 65536. -/
theorem read_construction_ignores_range_end_witness :
    ReadFunction.create 1 2000 65535 2000 =
      .ok (ReadFunction.mk 1 2000 65535 2000) ∧
    (ReadFunction.mk 1 2000 65535 2).execute 1
      (fun _ _ _ => some (fun _ address => address)) = .ok [65535, 65536] := by
  exact ⟨read_construction_ignores_range_end.1 1 2000 65535 2000 (by omega)
      (by omega) (by omega),
    read_construction_ignores_range_end.2 (ReadFunction.mk 1 2000 65535 2) rfl⟩
